import Mathlib

/-!
Verification development for `src/logic/stagecontrol_logic.py` (StagecontrolLogic,
the Attocube stage controller of cam-qudi).

The module is a Qt signal/timer driven class.  We embed it shallowly:

* Hardware, counter and GUI effects are recorded as an explicit list of `Event`s
  in the order the corresponding calls are made by the Python code.
* The optimisation routine is a timer-driven state machine.  Each
  `QTimer.singleShot` continuation is modelled by a `Pending` tag stored in the
  state; firing one timer callback is `runCallback`, which consumes one `Env`
  describing everything the environment supplies to that callback (whether
  `abort_optimisation` was called in the gap before it, whether the counter
  module is `locked`, the latest smoothed count sample, and whether a hardware
  call raises `PositionerError` during the callback).
* Count samples (`countdata_smoothed` entries, floats in the source) are
  modelled as rationals; only their linear order is ever used.
* Python integers are `Int`; `//` is `Int.fdiv` (floor division).
-/

namespace Stagecontrol

/-- Stage axes 'x', 'y', 'z' used by the logic module. -/
inductive Axis
  | x
  | y
  | z
deriving DecidableEq, Repr

/-- One observable action of `StagecontrolLogic`, in program order: hardware
calls on `stage_hw`, counter calls on `counter_logic`, emitted Qt signals and
log output. -/
inductive Event
  | setOffset (axis : Axis) (v : Int)
  | moveSteps (axis : Axis) (n : Int)
  | startJogHW (axis : Axis) (dir : Bool)
  | stopAxisHW (axis : Axis)
  | stopAllHW
  | startCount
  | stopCount
  | countDataUpdated
  | optimisationDone
  | logError (msg : String)
  | logDebug
deriving DecidableEq, Repr

/-- `np.sign` on a rational input. -/
def sign (q : ℚ) : Int :=
  if q > 0 then 1 else if q < 0 then -1 else 0

/-- `np.sign` on an integer input (the per-axis jog-state variables are
Python ints). -/
def isign (n : Int) : Int :=
  if n > 0 then 1 else if n < 0 then -1 else 0

/-- Helper for `argmax`: walks the tail of the list keeping the running
maximum value `bv` and the index `best` of its first occurrence; `i` is the
index of the head of `l` in the original list.  The running maximum is
replaced only on a strictly larger value, so the first occurrence wins. -/
def argmaxAux : List ℚ → ℚ → Nat → Nat → Nat
  | [], _, _, best => best
  | a :: rest, bv, i, best =>
      if bv < a then argmaxAux rest a (i + 1) i
      else argmaxAux rest bv (i + 1) best

/-- `np.argmax`: index of the first occurrence of the maximum value.
(`np.argmax` raises on an empty array; the code only ever calls it on a
non-empty `sweep_counts`, and we return `0` there.) -/
def argmax : List ℚ → Nat
  | [] => 0
  | a :: rest => argmaxAux rest a 1 0

theorem argmaxAux_lt (l : List ℚ) (bv : ℚ) (i best : Nat) (h : best < i) :
    argmaxAux l bv i best < i + l.length := by
  induction l generalizing bv i best with
  | nil => simpa [argmaxAux] using h
  | cons a rest ih =>
    by_cases hb : bv < a
    · have h2 := ih a (i + 1) i (by omega)
      simp only [argmaxAux, if_pos hb, List.length_cons]
      omega
    · have h2 := ih bv (i + 1) best (by omega)
      simp only [argmaxAux, if_neg hb, List.length_cons]
      omega

/-- The argmax of a non-empty list is a valid index. -/
theorem argmax_lt_length (l : List ℚ) (h : l ≠ []) : argmax l < l.length := by
  match l with
  | [] => exact absurd rfl h
  | a :: rest =>
    have h2 := argmaxAux_lt rest a 1 0 (by omega)
    simp only [argmax, List.length_cons]
    omega

theorem argmaxAux_append_big (l : List ℚ) (b : ℚ) (bv : ℚ) (i best : Nat)
    (hbv : bv < b) (hl : ∀ a ∈ l, a < b) :
    argmaxAux (l ++ [b]) bv i best = i + l.length := by
  induction l generalizing bv i best with
  | nil => simp [argmaxAux, hbv]
  | cons a rest ih =>
    have ha : a < b := hl a (by simp)
    have hrest : ∀ x ∈ rest, x < b := fun x hx => hl x (by simp [hx])
    by_cases hb : bv < a
    · rw [List.cons_append, argmaxAux, if_pos hb, ih a (i + 1) i ha hrest]
      simp only [List.length_cons]
      omega
    · rw [List.cons_append, argmaxAux, if_neg hb, ih bv (i + 1) best hbv hrest]
      simp only [List.length_cons]
      omega

/-- If every element of `l` is strictly below `b`, the argmax of `l ++ [b]`
is the index of `b`. -/
theorem argmax_append_big (l : List ℚ) (b : ℚ) (hl : ∀ a ∈ l, a < b) :
    argmax (l ++ [b]) = l.length := by
  match l with
  | [] => simp [argmax, argmaxAux]
  | a :: rest =>
    have ha : a < b := hl a (by simp)
    have hrest : ∀ x ∈ rest, x < b := fun x hx => hl x (by simp [hx])
    simp only [List.cons_append, argmax, List.length_cons]
    rw [argmaxAux_append_big rest b a 1 0 ha hrest]
    omega

theorem argmaxAux_spec (l : List ℚ) (bv : ℚ) (i best : Nat) :
    (argmaxAux l bv i best = best ∧ ∀ a ∈ l, a ≤ bv) ∨
    (∃ j, j < l.length ∧ argmaxAux l bv i best = i + j ∧ bv < l.getD j 0 ∧
      (∀ k, k < j → l.getD k 0 < l.getD j 0) ∧
      (∀ k, j < k → k < l.length → l.getD k 0 ≤ l.getD j 0)) := by
  induction l generalizing bv i best with
  | nil => exact Or.inl ⟨rfl, by simp⟩
  | cons a rest ih =>
    by_cases hb : bv < a
    · rcases ih a (i + 1) i with ⟨heq, hle⟩ | ⟨j, hj, heq, hv, hbefore, hafter⟩
      · refine Or.inr ⟨0, by simp, ?_, ?_, ?_, ?_⟩
        · rw [argmaxAux, if_pos hb, heq]; omega
        · simpa only [List.getD_cons_zero] using hb
        · intro k hk; omega
        · intro k h0k hk
          match k, h0k with
          | k + 1, _ =>
            rw [List.getD_cons_succ, List.getD_cons_zero]
            have hk2 : k < rest.length := by
              simp only [List.length_cons] at hk; omega
            rw [List.getD_eq_getElem rest 0 hk2]
            exact hle _ (List.getElem_mem hk2)
      · refine Or.inr ⟨j + 1, ?_, ?_, ?_, ?_, ?_⟩
        · simp only [List.length_cons]; omega
        · rw [argmaxAux, if_pos hb, heq]; omega
        · rw [List.getD_cons_succ]; exact lt_trans hb hv
        · intro k hk
          match k with
          | 0 =>
            rw [List.getD_cons_zero, List.getD_cons_succ]
            exact hv
          | k + 1 =>
            rw [List.getD_cons_succ, List.getD_cons_succ]
            exact hbefore k (by omega)
        · intro k hjk hk
          match k, hjk with
          | k + 1, _ =>
            rw [List.getD_cons_succ, List.getD_cons_succ]
            refine hafter k (by omega) ?_
            simp only [List.length_cons] at hk; omega
    · rcases ih bv (i + 1) best with ⟨heq, hle⟩ | ⟨j, hj, heq, hv, hbefore, hafter⟩
      · refine Or.inl ⟨?_, ?_⟩
        · rw [argmaxAux, if_neg hb, heq]
        · intro x hx
          rcases List.mem_cons.1 hx with h | h
          · rw [h]; exact le_of_not_lt hb
          · exact hle x h
      · refine Or.inr ⟨j + 1, ?_, ?_, ?_, ?_, ?_⟩
        · simp only [List.length_cons]; omega
        · rw [argmaxAux, if_neg hb, heq]; omega
        · rw [List.getD_cons_succ]; exact hv
        · intro k hk
          match k with
          | 0 =>
            rw [List.getD_cons_zero, List.getD_cons_succ]
            exact lt_of_le_of_lt (le_of_not_lt hb) hv
          | k + 1 =>
            rw [List.getD_cons_succ, List.getD_cons_succ]
            exact hbefore k (by omega)
        · intro k hjk hk
          match k, hjk with
          | k + 1, _ =>
            rw [List.getD_cons_succ, List.getD_cons_succ]
            refine hafter k (by omega) ?_
            simp only [List.length_cons] at hk; omega

/-- `argmax` really is the stable (first-occurrence) argmax: the value at the
returned index is maximal, and every earlier value is strictly smaller. -/
theorem argmax_first_max (l : List ℚ) (h : l ≠ []) :
    (∀ k, k < l.length → l.getD k 0 ≤ l.getD (argmax l) 0) ∧
    (∀ k, k < argmax l → l.getD k 0 < l.getD (argmax l) 0) := by
  match l with
  | a :: rest =>
    rcases argmaxAux_spec rest a 1 0 with ⟨heq, hle⟩ | ⟨j, hj, heq, hv, hb, haf⟩
    · have hm : argmax (a :: rest) = 0 := heq
      rw [hm]
      constructor
      · intro k hk
        match k with
        | 0 => exact le_refl _
        | k + 1 =>
          rw [List.getD_cons_succ, List.getD_cons_zero]
          have hk2 : k < rest.length := by
            simp only [List.length_cons] at hk
            omega
          rw [List.getD_eq_getElem rest 0 hk2]
          exact hle _ (List.getElem_mem hk2)
      · intro k hk
        omega
    · have hm : argmax (a :: rest) = j + 1 := by
        have : argmax (a :: rest) = 1 + j := heq
        omega
      rw [hm]
      rw [List.getD_cons_succ]
      constructor
      · intro k hk
        match k with
        | 0 =>
          rw [List.getD_cons_zero]
          exact le_of_lt hv
        | k + 1 =>
          rw [List.getD_cons_succ]
          rcases lt_trichotomy k j with h2 | h2 | h2
          · exact le_of_lt (hb k h2)
          · subst h2
            exact le_refl _
          · refine haf k h2 ?_
            simp only [List.length_cons] at hk
            omega
      · intro k hk
        match k with
        | 0 =>
          rw [List.getD_cons_zero]
          exact hv
        | k + 1 =>
          rw [List.getD_cons_succ]
          exact hb k (by omega)

/-- A `PositionerError` raised by the stage hardware (`PositionerError` in
`interface/positioner_interface.py`), carrying its message. -/
structure PositionerError where
  msg : String
deriving DecidableEq, Repr

/-- The `hwerror_handler` decorator: runs the wrapped body, catches a
`PositionerError`, logs it and returns `None`.  The result type still allows
an error so that "the fault propagates to the caller" is expressible, but the
decorated call never produces one. -/
def hwerror_handler {α : Type} (r : Except PositionerError α) :
    Except PositionerError (Option α) × List Event :=
  match r with
  | Except.ok a => (Except.ok (some a), [])
  | Except.error e => (Except.ok none, [Event.logError e.msg])

/-- `start_jog(axis, direction)`: zero the offset voltage, then start
continuous motion (fault-free event trace of the decorated body). -/
def start_jog (axis : Axis) (direction : Bool) : List Event :=
  [Event.setOffset axis 0, Event.startJogHW axis direction]

/-- `step(axis, steps)`: zero the offset voltage, then move the given number
of steps (fault-free event trace of the decorated body). -/
def step (axis : Axis) (steps : Int) : List Event :=
  [Event.setOffset axis 0, Event.moveSteps axis steps]

/-- `stop()`: stop all axes. -/
def stop : List Event :=
  [Event.stopAllHW]

/-- `stop_axis(axis)`: stop the axis, then zero its offset voltage. -/
def stop_axis (axis : Axis) : List Event :=
  [Event.stopAxisHW axis, Event.setOffset axis 0]

/-- `set_axis_params(axis, volt, freq)`: a single `set_axis_config` call on
the hardware, wrapped in `hwerror_handler`.  `hwSet` is the hardware's
response to that call. -/
def set_axis_params (hwSet : Axis → Int → Int → Except PositionerError Unit)
    (axis : Axis) (volt freq : Int) :
    Except PositionerError (Option Unit) × List Event :=
  hwerror_handler (hwSet axis volt freq)

/-- `get_axis_params(axis)`: queries `step_voltage` then `frequency` via
`get_axis_config` and returns the pair.  In the source this method carries the
same `@hwerror_handler` decorator as `set_axis_params`, so the whole body is
wrapped. -/
def get_axis_params (hwGet : Axis → String → Except PositionerError ℚ)
    (axis : Axis) : Except PositionerError (Option (ℚ × ℚ)) × List Event :=
  hwerror_handler (do
    let volt ← hwGet axis "step_voltage"
    let freq ← hwGet axis "frequency"
    return (volt, freq))

/-- Which `QTimer.singleShot` continuation of the optimisation routine is
currently scheduled (the source keeps this implicitly in the Qt event queue). -/
inductive Pending
  | stepTick
  | voltStart
  | voltTick
  | none
deriving DecidableEq, Repr

/-- The mutable attributes of `StagecontrolLogic` used by the optimisation
routine, plus the scheduled continuation.  `crashed` records an uncaught
`PositionerError` escaping `_start_volt_optimisation` (its `move_steps` call
is not inside a `try`). -/
structure OptState where
  sweep_length : Int
  v_sweep_length : Int
  current_step : Int
  current_v_step : Int
  sweep_counts : List ℚ
  abort : Bool
  pending : Pending
  crashed : Bool
deriving DecidableEq, Repr

/-- Everything the environment supplies to one timer callback: whether
`abort_optimisation()` ran in the gap before it, whether
`counter_logic.module_state()` is `'locked'`, the latest
`countdata_smoothed` sample, and whether the hardware call made during the
callback raises `PositionerError`. -/
structure Env where
  abortSet : Bool
  locked : Bool
  sample : ℚ
  moveFault : Bool
  offsetFault : Bool
deriving DecidableEq, Repr

/-- An uneventful sampling tick: no abort request, counter locked, sample `s`,
no hardware fault. -/
def okEnv (s : ℚ) : Env :=
  { abortSet := false, locked := true, sample := s,
    moveFault := false, offsetFault := false }

/-- `_optimisation_step`, the step-sweep sampling tick. -/
def optimisation_step (st : OptState) (env : Env) : OptState × List Event :=
  if st.abort then
    ({ st with pending := Pending.none }, [Event.stopCount])
  else if env.locked then
    let counts := st.sweep_counts ++ [env.sample]
    if st.current_step < st.sweep_length then
      if env.moveFault then
        ({ st with sweep_counts := counts, pending := Pending.none },
         [Event.countDataUpdated, Event.moveSteps Axis.z 1,
          Event.logError "Aborting sweep due to hardware error", Event.stopCount])
      else
        ({ st with sweep_counts := counts, current_step := st.current_step + 1, pending := Pending.stepTick },
         [Event.countDataUpdated, Event.moveSteps Axis.z 1])
    else
      let maxIndex : Nat := argmax counts
      let steps : Int := 2 * st.sweep_length - maxIndex
      let moveEvs : List Event :=
        if steps > 0 then
          Event.moveSteps Axis.z (-steps) ::
            (if env.moveFault then
              [Event.logError "Could not return stage to optimum position due to hardware error"]
             else [])
        else []
      if st.v_sweep_length > 0 then
        ({ st with sweep_counts := counts, pending := Pending.voltStart },
         Event.countDataUpdated :: Event.logDebug :: moveEvs)
      else
        ({ st with sweep_counts := counts, pending := Pending.none },
         Event.countDataUpdated :: Event.logDebug :: moveEvs ++ [Event.optimisationDone])
  else
    ({ st with pending := Pending.none },
     [Event.logError "Sweep aborted: counter unexpectedly stopped."])

/-- `_volt_optimisation_step`, the voltage-sweep sampling tick.  Note that
when the counter module is not `'locked'` the source function simply falls off
the end: no log, no events, no re-armed timer. -/
def volt_optimisation_step (st : OptState) (env : Env) : OptState × List Event :=
  if st.abort then
    ({ st with pending := Pending.none }, [Event.stopCount])
  else if env.locked then
    let counts := st.sweep_counts ++ [env.sample]
    if st.current_v_step < st.v_sweep_length then
      if env.offsetFault then
        ({ st with sweep_counts := counts, pending := Pending.none },
         [Event.countDataUpdated, Event.setOffset Axis.z st.current_v_step,
          Event.logError "Aborting sweep due to hardware error", Event.stopCount])
      else
        ({ st with sweep_counts := counts, current_v_step := st.current_v_step + 1, pending := Pending.voltTick },
         [Event.countDataUpdated, Event.setOffset Axis.z st.current_v_step])
    else
      let maxIndex : Nat := argmax counts
      ({ st with sweep_counts := counts, pending := Pending.none },
       Event.countDataUpdated :: Event.logDebug :: Event.setOffset Axis.z maxIndex ::
        (if env.offsetFault then
          [Event.logError "Could not return stage to optimum position due to hardware error"]
         else []) ++ [Event.optimisationDone])
  else
    ({ st with pending := Pending.none }, [])

/-- `_start_volt_optimisation`: resets the voltage cursor and the sample list,
moves `v_sweep_length // 20 + 1` steps back and starts the counter.  It does
NOT check the abort flag, and its `move_steps` call is not inside a `try` (an
uncaught fault is recorded as `crashed`). -/
def start_volt_optimisation (st : OptState) (moveFault : Bool) :
    OptState × List Event :=
  let st1 := { st with current_v_step := 0, sweep_counts := ([] : List ℚ) }
  let steps : Int := Int.fdiv st.v_sweep_length 20 + 1
  if moveFault then
    ({ st1 with pending := Pending.none, crashed := true },
     [Event.logDebug, Event.moveSteps Axis.z (-steps)])
  else
    ({ st1 with pending := Pending.voltTick },
     [Event.logDebug, Event.moveSteps Axis.z (-steps), Event.startCount])

/-- `_start_step_optimisation`: sets the step cursor to `-sweep_length`,
clears the sample list, zeroes the z offset voltage, moves to the start of
the search range, and starts the counter; a fault in the initial move aborts
the sweep before the counter is started. -/
def start_step_optimisation (st : OptState) (moveFault : Bool) :
    OptState × List Event :=
  let st1 := { st with current_step := -st.sweep_length, sweep_counts := ([] : List ℚ) }
  if moveFault then
    ({ st1 with pending := Pending.none },
     [Event.setOffset Axis.z 0, Event.moveSteps Axis.z (-st.sweep_length),
      Event.logError "Aborting sweep due to hardware error"])
  else
    ({ st1 with pending := Pending.stepTick },
     [Event.setOffset Axis.z 0, Event.moveSteps Axis.z (-st.sweep_length),
      Event.startCount])

/-- The attribute values `optimise_z` establishes before branching. -/
def initState (steps volts : Int) : OptState :=
  { sweep_length := steps, v_sweep_length := volts, current_step := 0,
    current_v_step := 0, sweep_counts := [], abort := false,
    pending := Pending.none, crashed := false }

/-- `optimise_z(steps, volts)`: resets the abort flag, then enters the step
sweep when `steps > 0`, else the voltage sweep when `volts > 0`, else does
nothing.  `moveFault` tells whether the initial hardware move raises. -/
def optimise_z (steps volts : Int) (moveFault : Bool) : OptState × List Event :=
  if steps > 0 then start_step_optimisation (initState steps volts) moveFault
  else if volts > 0 then start_volt_optimisation (initState steps volts) moveFault
  else (initState steps volts, [])

/-- Fire the scheduled timer callback once.  `abort_optimisation()` calls that
happened in the gap before the callback are applied first (`env.abortSet`). -/
def runCallback (st : OptState) (env : Env) : OptState × List Event :=
  let st := if env.abortSet then { st with abort := true } else st
  match st.pending with
  | Pending.stepTick => optimisation_step st env
  | Pending.voltStart => start_volt_optimisation st env.moveFault
  | Pending.voltTick => volt_optimisation_step st env
  | Pending.none => (st, [])

/-- Fire the scheduled callbacks for a whole list of environment inputs,
concatenating the event traces. -/
def runCallbacks (st : OptState) : List Env → OptState × List Event
  | [] => (st, [])
  | env :: es =>
    let r := runCallback st env
    let r2 := runCallbacks r.1 es
    (r2.1, r.2 ++ r2.2)

/-- A whole optimisation run: `optimise_z(steps, volts)` (with a fault-free
initial move) followed by the timer callbacks it schedules. -/
def optimiseRun (steps volts : Int) (envs : List Env) : OptState × List Event :=
  let r := optimise_z steps volts false
  let r2 := runCallbacks r.1 envs
  (r2.1, r.2 ++ r2.2)

/-- The offset-voltage values written to an axis, in trace order. -/
def offsetWrites (axis : Axis) : List Event → List Int
  | [] => []
  | Event.setOffset a v :: rest =>
      if a = axis then v :: offsetWrites axis rest else offsetWrites axis rest
  | _ :: rest => offsetWrites axis rest

/-- Is this event an error-log entry? -/
def isLogError : Event → Bool
  | Event.logError _ => true
  | _ => false

/-- Checks that every motion command (`move_steps` / `start_continuous_motion`)
on `axis` in the trace is preceded by a `set_axis_config(axis, offset_voltage=0)`
with no other offset write to that axis in between.  The flag carries whether
the offset voltage of `axis` is currently known to be zeroed. -/
def motionsZeroed (axis : Axis) : List Event → Bool → Bool
  | [], _ => true
  | Event.setOffset a v :: rest, z =>
      motionsZeroed axis rest (if a = axis then v == 0 else z)
  | Event.moveSteps a _ :: rest, z =>
      if a = axis then z && motionsZeroed axis rest z else motionsZeroed axis rest z
  | Event.startJogHW a _ :: rest, z =>
      if a = axis then z && motionsZeroed axis rest z else motionsZeroed axis rest z
  | _ :: rest, z => motionsZeroed axis rest z

/-- The per-axis joystick jog-state attributes (`*_joystick_jog_running`):
`0` for no motion, `+1`/`-1` for the commanded direction. -/
structure JoyState where
  x_joystick_jog_running : Int
  y_joystick_jog_running : Int
  z_joystick_jog_running : Int
deriving DecidableEq, Repr

/-- One joystick sample event (`joystick_state` dict). -/
structure JoystickInput where
  x_left : ℚ
  y_left : ℚ
  y_right : ℚ
deriving DecidableEq, Repr

/-- The sector policy of `xbox_joystick_move` computing `required_x` and
`required_y` from the left-hand joystick.  The source's circular dead zone is
`np.sqrt(x**2 + y**2) < 0.1`; since both sides are non-negative and squaring
is monotone, this is `x^2 + y^2 < (1/10)^2`, which is how we write it. -/
def requiredXY (x y : ℚ) : Int × Int :=
  if x ^ 2 + y ^ 2 < (1 / 10) ^ 2 then (0, 0)
  else if |y| > |2 * x| then (0, sign y)
  else if |x| > |2 * y| then (sign x, 0)
  else ((if x ≠ 0 then sign x else 0), (if y ≠ 0 then sign y else 0))

/-- The z-axis part of `xbox_joystick_move` (right-hand joystick y input):
stop when the input is zeroed while jogging, else start jogging whenever the
input's sign differs from the recorded state.  Note `start_jog('z', False)`
is the command for positive input. -/
def zControl (zr : Int) (z : ℚ) : Int × List Event :=
  if z = 0 ∧ zr ≠ 0 then (0, stop_axis Axis.z)
  else if sign z ≠ isign zr then
    if z > 0 then (1, start_jog Axis.z false)
    else if z < 0 then (-1, start_jog Axis.z true)
    else (zr, [])
  else (zr, [])

/-- The "Move y" block of `xbox_joystick_move`: `yr` is the current
`y_joystick_jog_running`, `ry` the computed `required_y`, `y` the raw input. -/
def moveY (yr : Int) (ry : Int) (y : ℚ) : Int × List Event :=
  if ry ≠ 0 ∧ (isign yr ≠ isign ry ∨ yr = 0) then
    if y > 0 then (1, start_jog Axis.y true)
    else if y < 0 then (-1, start_jog Axis.y false)
    else (yr, [])
  else (yr, [])

/-- The "Move x" block of `xbox_joystick_move`. -/
def moveX (xr : Int) (rx : Int) (x : ℚ) : Int × List Event :=
  if rx ≠ 0 ∧ (isign xr ≠ isign rx ∨ xr = 0) then
    if x > 0 then (1, start_jog Axis.x true)
    else if x < 0 then (-1, start_jog Axis.x false)
    else (xr, [])
  else (xr, [])

/-- The "Stop x" block of `xbox_joystick_move`. -/
def stopXBlock (xr rx : Int) : Int × List Event :=
  if rx = 0 ∧ xr ≠ 0 then (0, stop_axis Axis.x) else (xr, [])

/-- The "Stop y" block of `xbox_joystick_move`. -/
def stopYBlock (yr ry : Int) : Int × List Event :=
  if ry = 0 ∧ yr ≠ 0 then (0, stop_axis Axis.y) else (yr, [])

/-- `xbox_joystick_move(joystick_state)`: the z block, then the x/y sector
policy, then (in source order) the stop-x, stop-y, move-y, move-x blocks. -/
def xbox_joystick_move (st : JoyState) (j : JoystickInput) :
    JoyState × List Event :=
  let zRes := zControl st.z_joystick_jog_running j.y_right
  let req := requiredXY j.x_left j.y_left
  let xStop := stopXBlock st.x_joystick_jog_running req.1
  let yStop := stopYBlock st.y_joystick_jog_running req.2
  let yMove := moveY yStop.1 req.2 j.y_left
  let xMove := moveX xStop.1 req.1 j.x_left
  ({ x_joystick_jog_running := xMove.1, y_joystick_jog_running := yMove.1,
     z_joystick_jog_running := zRes.1 },
   zRes.2 ++ xStop.2 ++ yStop.2 ++ yMove.2 ++ xMove.2)

/-- The axis a hardware event concerns, if any. -/
def eventAxis : Event → Option Axis
  | Event.setOffset a _ => some a
  | Event.moveSteps a _ => some a
  | Event.startJogHW a _ => some a
  | Event.stopAxisHW a => some a
  | _ => none

/-- Process a whole sequence of joystick samples. -/
def runJoystick (st : JoyState) : List JoystickInput → JoyState × List Event
  | [] => (st, [])
  | j :: js =>
    let r := xbox_joystick_move st j
    let r2 := runJoystick r.1 js
    (r2.1, r.2 ++ r2.2)

/-- The signed direction a `start_continuous_motion(axis, dir)` call means,
per the source's own pairing of boolean argument and jog-state update:
`start_jog('z', False)` is used for positive z, `start_jog('x'/'y', True)`
for positive x/y. -/
def jogDir (a : Axis) (d : Bool) : Int :=
  match a with
  | Axis.z => if d then -1 else 1
  | _ => if d then 1 else -1

/-- The signed direction last commanded to the hardware for `axis` by a trace
(`cur` = direction before the trace; `0` = stopped). -/
def lastCommanded (axis : Axis) : Int → List Event → Int
  | cur, [] => cur
  | cur, Event.startJogHW a d :: rest =>
      lastCommanded axis (if a = axis then jogDir a d else cur) rest
  | cur, Event.stopAxisHW a :: rest =>
      lastCommanded axis (if a = axis then 0 else cur) rest
  | _, Event.stopAllHW :: rest => lastCommanded axis 0 rest
  | cur, _ :: rest => lastCommanded axis cur rest

/-- A jog-state record is valid when every component is `-1`, `0` or `1`
(the only values the code ever assigns). -/
def JoyState.valid (st : JoyState) : Prop :=
  (st.x_joystick_jog_running = -1 ∨ st.x_joystick_jog_running = 0 ∨
    st.x_joystick_jog_running = 1) ∧
  (st.y_joystick_jog_running = -1 ∨ st.y_joystick_jog_running = 0 ∨
    st.y_joystick_jog_running = 1) ∧
  (st.z_joystick_jog_running = -1 ∨ st.z_joystick_jog_running = 0 ∨
    st.z_joystick_jog_running = 1)

instance (st : JoyState) : Decidable st.valid := by
  unfold JoyState.valid
  infer_instance

/-- The event trace of `n` successful step-sweep sampling ticks. -/
def stepMoveEvents : Nat → List Event
  | 0 => []
  | n + 1 =>
      Event.countDataUpdated :: Event.moveSteps Axis.z 1 :: stepMoveEvents n

/-- The event trace of `n` successful volt-sweep sampling ticks starting at
voltage cursor `c`. -/
def voltMoveEvents (c : Int) : Nat → List Event
  | 0 => []
  | n + 1 =>
      Event.countDataUpdated :: Event.setOffset Axis.z c ::
        voltMoveEvents (c + 1) n

/-- The state of the step-sweep sampling loop: cursor at `c`, samples so far
`acc`, next timer callback `_optimisation_step`. -/
def stepLoopState (L V c : Int) (acc : List ℚ) : OptState :=
  { sweep_length := L, v_sweep_length := V, current_step := c,
    current_v_step := 0, sweep_counts := acc, abort := false,
    pending := Pending.stepTick, crashed := false }

/-- The state of the volt-sweep sampling loop entered directly from
`optimise_z(0, V)`: voltage cursor at `c`, samples so far `acc`. -/
def voltLoopState (V c : Int) (acc : List ℚ) : OptState :=
  { sweep_length := 0, v_sweep_length := V, current_step := 0,
    current_v_step := c, sweep_counts := acc, abort := false,
    pending := Pending.voltTick, crashed := false }

theorem runCallbacks_append (st : OptState) (l1 l2 : List Env) :
    runCallbacks st (l1 ++ l2) =
      ((runCallbacks (runCallbacks st l1).1 l2).1,
       (runCallbacks st l1).2 ++ (runCallbacks (runCallbacks st l1).1 l2).2) := by
  induction l1 generalizing st with
  | nil => simp [runCallbacks]
  | cons e es ih =>
    simp only [List.cons_append, runCallbacks, List.append_eq, ih,
      List.append_assoc]

theorem optimise_z_step_entry (L V : Int) (hL : 0 < L) :
    optimise_z L V false =
      (stepLoopState L V (-L) [],
       [Event.setOffset Axis.z 0, Event.moveSteps Axis.z (-L),
        Event.startCount]) := by
  simp [optimise_z, hL, start_step_optimisation, initState, stepLoopState]

theorem optimise_z_volt_entry (V : Int) (hV : 0 < V) :
    optimise_z 0 V false =
      (voltLoopState V 0 [],
       [Event.logDebug, Event.moveSteps Axis.z (-(Int.fdiv V 20 + 1)),
        Event.startCount]) := by
  simp [optimise_z, hV, start_volt_optimisation, initState, voltLoopState]

theorem optStep_sample (L V c : Int) (acc : List ℚ) (s : ℚ) (h : c < L) :
    runCallback (stepLoopState L V c acc) (okEnv s) =
      (stepLoopState L V (c + 1) (acc ++ [s]),
       [Event.countDataUpdated, Event.moveSteps Axis.z 1]) := by
  simp [runCallback, okEnv, stepLoopState, optimisation_step, h]

theorem stepLoop_run (L V : Int) (samples : List ℚ) (c : Int) (acc : List ℚ)
    (hc : c + samples.length = L) :
    runCallbacks (stepLoopState L V c acc) (samples.map okEnv) =
      (stepLoopState L V L (acc ++ samples),
       stepMoveEvents samples.length) := by
  induction samples generalizing c acc with
  | nil =>
    simp only [List.length_nil, Nat.cast_zero, add_zero] at hc
    subst hc
    simp [runCallbacks, stepMoveEvents]
  | cons s rest ih =>
    have hlt : c < L := by
      simp only [List.length_cons] at hc
      push_cast at hc
      omega
    have hc2 : (c + 1) + (rest.length : Int) = L := by
      simp only [List.length_cons] at hc
      push_cast at hc ⊢
      omega
    simp only [List.map_cons, runCallbacks, optStep_sample L V c acc s hlt,
      ih (c + 1) (acc ++ [s]) hc2, List.length_cons, stepMoveEvents,
      List.append_assoc, List.singleton_append, List.cons_append,
      List.nil_append]

theorem optStep_final (L V : Int) (acc : List ℚ) (s : ℚ) :
    runCallback (stepLoopState L V L acc) (okEnv s) =
      ({ stepLoopState L V L (acc ++ [s]) with
          pending := if 0 < V then Pending.voltStart else Pending.none },
       Event.countDataUpdated :: Event.logDebug ::
         ((if 0 < 2 * L - (argmax (acc ++ [s]) : Int) then
             [Event.moveSteps Axis.z (-(2 * L - (argmax (acc ++ [s]) : Int)))]
           else []) ++
          (if 0 < V then [] else [Event.optimisationDone]))) := by
  by_cases hV : 0 < V <;>
  by_cases hm : 0 < 2 * L - (argmax (acc ++ [s]) : Int) <;>
    simp [runCallback, okEnv, stepLoopState, optimisation_step, hV, hm,
      lt_irrefl]

/-- Event trace and final state of a full fault-free step-sweep run:
`optimise_z(L, V)` with `L > 0`, counter always locked, never aborted,
recording `samples ++ [sLast]` (one sample per tick, `2L + 1` ticks). -/
theorem stepRun_trace (L V : Int) (samples : List ℚ) (sLast : ℚ)
    (hL : 0 < L) (hlen : (samples.length : Int) = 2 * L) :
    optimiseRun L V ((samples ++ [sLast]).map okEnv) =
      ({ stepLoopState L V L (samples ++ [sLast]) with
          pending := if 0 < V then Pending.voltStart else Pending.none },
       Event.setOffset Axis.z 0 :: Event.moveSteps Axis.z (-L) ::
         Event.startCount ::
         (stepMoveEvents samples.length ++
          (Event.countDataUpdated :: Event.logDebug ::
            ((if 0 < 2 * L - (argmax (samples ++ [sLast]) : Int) then
                [Event.moveSteps Axis.z
                  (-(2 * L - (argmax (samples ++ [sLast]) : Int)))]
              else []) ++
             (if 0 < V then [] else [Event.optimisationDone]))))) := by
  have hentry := optimise_z_step_entry L V hL
  have hloop := stepLoop_run L V samples (-L) [] (by omega)
  have hfin := optStep_final L V samples sLast
  simp only [optimiseRun, hentry, List.map_append, List.map_cons,
    List.map_nil, runCallbacks_append, hloop, List.nil_append]
  simp only [runCallbacks, hfin, List.append_nil, List.cons_append,
    List.append_assoc, List.nil_append]

theorem voltStep_sample (V c : Int) (acc : List ℚ) (s : ℚ) (h : c < V) :
    runCallback (voltLoopState V c acc) (okEnv s) =
      (voltLoopState V (c + 1) (acc ++ [s]),
       [Event.countDataUpdated, Event.setOffset Axis.z c]) := by
  simp [runCallback, okEnv, voltLoopState, volt_optimisation_step, h]

theorem voltLoop_run (V : Int) (samples : List ℚ) (c : Int) (acc : List ℚ)
    (hc : c + samples.length = V) :
    runCallbacks (voltLoopState V c acc) (samples.map okEnv) =
      (voltLoopState V V (acc ++ samples),
       voltMoveEvents c samples.length) := by
  induction samples generalizing c acc with
  | nil =>
    simp only [List.length_nil, Nat.cast_zero, add_zero] at hc
    subst hc
    simp [runCallbacks, voltMoveEvents]
  | cons s rest ih =>
    have hlt : c < V := by
      simp only [List.length_cons] at hc
      push_cast at hc
      omega
    have hc2 : (c + 1) + (rest.length : Int) = V := by
      simp only [List.length_cons] at hc
      push_cast at hc ⊢
      omega
    simp only [List.map_cons, runCallbacks, voltStep_sample V c acc s hlt,
      ih (c + 1) (acc ++ [s]) hc2, List.length_cons, voltMoveEvents,
      List.append_assoc, List.singleton_append, List.cons_append,
      List.nil_append]

theorem voltStep_final (V : Int) (acc : List ℚ) (s : ℚ) :
    runCallback (voltLoopState V V acc) (okEnv s) =
      ({ voltLoopState V V (acc ++ [s]) with pending := Pending.none },
       [Event.countDataUpdated, Event.logDebug,
        Event.setOffset Axis.z (argmax (acc ++ [s]) : Int),
        Event.optimisationDone]) := by
  simp [runCallback, okEnv, voltLoopState, volt_optimisation_step, lt_irrefl]

/-- Event trace and final state of a full fault-free voltage-sweep run entered
directly by `optimise_z(0, V)` with `V > 0`, recording `samples ++ [sLast]`
(one sample per tick, `V + 1` ticks). -/
theorem voltRun_trace (V : Int) (samples : List ℚ) (sLast : ℚ)
    (hV : 0 < V) (hlen : (samples.length : Int) = V) :
    optimiseRun 0 V ((samples ++ [sLast]).map okEnv) =
      ({ voltLoopState V V (samples ++ [sLast]) with pending := Pending.none },
       Event.logDebug :: Event.moveSteps Axis.z (-(Int.fdiv V 20 + 1)) ::
         Event.startCount ::
         (voltMoveEvents 0 samples.length ++
          [Event.countDataUpdated, Event.logDebug,
           Event.setOffset Axis.z (argmax (samples ++ [sLast]) : Int),
           Event.optimisationDone])) := by
  have hentry := optimise_z_volt_entry V hV
  have hloop := voltLoop_run V samples 0 [] (by omega)
  have hfin := voltStep_final V samples sLast
  simp only [optimiseRun, hentry, List.map_append, List.map_cons,
    List.map_nil, runCallbacks_append, hloop, List.nil_append]
  simp only [runCallbacks, hfin, List.append_nil, List.cons_append,
    List.append_assoc, List.nil_append]

theorem mem_stepMoveEvents {e : Event} {n : Nat} (h : e ∈ stepMoveEvents n) :
    e = Event.countDataUpdated ∨ e = Event.moveSteps Axis.z 1 := by
  induction n with
  | zero => simp [stepMoveEvents] at h
  | succ n ih =>
    rw [stepMoveEvents] at h
    rcases List.mem_cons.1 h with h | h
    · exact Or.inl h
    · rcases List.mem_cons.1 h with h | h
      · exact Or.inr h
      · exact ih h

theorem offsetWrites_append (axis : Axis) (l1 l2 : List Event) :
    offsetWrites axis (l1 ++ l2) =
      offsetWrites axis l1 ++ offsetWrites axis l2 := by
  induction l1 with
  | nil => simp [offsetWrites]
  | cons e rest ih =>
    cases e
    case setOffset a v => by_cases h : a = axis <;> simp [offsetWrites, h, ih]
    all_goals simp [offsetWrites, ih]

theorem offsetWrites_voltMoveEvents (c : Int) (n : Nat) :
    offsetWrites Axis.z (voltMoveEvents c n) =
      (List.range n).map (fun (i : Nat) => c + (i : Int)) := by
  induction n generalizing c with
  | zero => simp [voltMoveEvents, offsetWrites]
  | succ n ih =>
    have hmap : (List.range (n + 1)).map (fun (i : Nat) => c + (i : Int)) =
        c :: (List.range n).map (fun (i : Nat) => (c + 1) + (i : Int)) := by
      rw [List.range_succ_eq_map]
      simp only [List.map_cons, Nat.cast_zero, add_zero, List.map_map]
      congr 1
      refine List.map_congr_left fun i _ => ?_
      simp only [Function.comp_apply]
      push_cast
      omega
    rw [voltMoveEvents, hmap]
    simp [offsetWrites, ih]

/-- C1: for every step sweep started by `optimise_z(stepCount, voltCount)`
with `stepCount > 0` whose sampling loop runs to completion (counter locked at
every tick, never aborted, no hardware fault), the first-occurring-maximum
index of the recorded samples determines the return offset
`2*stepCount - maxIndex`: when that offset is positive the post-sampling
events contain exactly one corrective move, of that magnitude in the negative
direction, and when it is zero no move command follows the sampling at all. -/
theorem c1_step_sweep_return_move (L V : Int) (samples : List ℚ) (sLast : ℚ)
    (hL : 0 < L) (hlen : (samples.length : Int) = 2 * L) :
    (0 < 2 * L - (argmax (samples ++ [sLast]) : Int) →
      (optimiseRun L V ((samples ++ [sLast]).map okEnv)).2 =
        Event.setOffset Axis.z 0 :: Event.moveSteps Axis.z (-L) ::
          Event.startCount :: stepMoveEvents samples.length ++
          [Event.countDataUpdated, Event.logDebug,
           Event.moveSteps Axis.z
             (-(2 * L - (argmax (samples ++ [sLast]) : Int)))] ++
          (if 0 < V then [] else [Event.optimisationDone])) ∧
    (2 * L - (argmax (samples ++ [sLast]) : Int) = 0 →
      (optimiseRun L V ((samples ++ [sLast]).map okEnv)).2 =
        Event.setOffset Axis.z 0 :: Event.moveSteps Axis.z (-L) ::
          Event.startCount :: stepMoveEvents samples.length ++
          [Event.countDataUpdated, Event.logDebug] ++
          (if 0 < V then [] else [Event.optimisationDone])) := by
  have h := stepRun_trace L V samples sLast hL hlen
  constructor
  · intro hpos
    rw [h]
    rw [if_pos hpos]
    simp
  · intro hzero
    rw [h, hzero]
    simp

theorem c1_witness :
    (0 : Int) < 1 ∧ ((([(1 : ℚ), 5]).length : Int) = 2 * 1) ∧
    0 < 2 * 1 - (argmax ([(1 : ℚ), 5] ++ [0]) : Int) ∧
    (optimiseRun 1 0 (([(1 : ℚ), 5] ++ [0]).map okEnv)).2 =
      Event.setOffset Axis.z 0 :: Event.moveSteps Axis.z (-1) ::
        Event.startCount :: stepMoveEvents ([(1 : ℚ), 5]).length ++
        [Event.countDataUpdated, Event.logDebug,
         Event.moveSteps Axis.z
           (-(2 * 1 - (argmax ([(1 : ℚ), 5] ++ [0]) : Int)))] ++
        (if (0 : Int) < 0 then [] else [Event.optimisationDone]) := by
  refine ⟨by norm_num, by decide, by decide, ?_⟩
  exact (c1_step_sweep_return_move 1 0 [1, 5] 0 (by norm_num) (by decide)).1
    (by decide)

/-- C9: a completed step sweep has appended exactly `2*stepCount + 1` samples
(cursor from `-stepCount` to `stepCount`, one per tick), so the return offset
`2*stepCount - maxIndex` is never negative; hence every move command of the
run other than the unit forward sweep moves — in particular the corrective
relocation — has a negative step count (never a positive/forward one). -/
theorem c9_step_sweep_sample_count (L V : Int) (samples : List ℚ) (sLast : ℚ)
    (hL : 0 < L) (hlen : (samples.length : Int) = 2 * L) :
    ((optimiseRun L V ((samples ++ [sLast]).map okEnv)).1.sweep_counts.length
        : Int) = 2 * L + 1 ∧
    0 ≤ 2 * L - (argmax (samples ++ [sLast]) : Int) ∧
    (∀ k : Int,
      Event.moveSteps Axis.z k ∈ (optimiseRun L V ((samples ++ [sLast]).map okEnv)).2 →
      k = 1 ∨ k < 0) := by
  have h := stepRun_trace L V samples sLast hL hlen
  have hargmax : argmax (samples ++ [sLast]) < samples.length + 1 := by
    have := argmax_lt_length (samples ++ [sLast]) (by simp)
    simpa using this
  refine ⟨?_, ?_, ?_⟩
  · rw [h]
    simp only [stepLoopState, List.length_append, List.length_singleton]
    push_cast
    omega
  · omega
  · intro k hk
    rw [h] at hk
    simp only [List.cons_append, List.mem_cons, List.mem_append] at hk
    rcases hk with h1 | h1 | h1 | h1 | h1 | h1 | h1
    · exact absurd h1 (by simp)
    · right
      rw [Event.moveSteps.injEq] at h1
      omega
    · exact absurd h1 (by simp)
    · rcases mem_stepMoveEvents h1 with h2 | h2
      · exact absurd h2 (by simp)
      · left
        rw [Event.moveSteps.injEq] at h2
        exact h2.2
    · exact absurd h1 (by simp)
    · exact absurd h1 (by simp)
    · rcases h1 with h2 | h2
      · right
        by_cases hm : 0 < 2 * L - (argmax (samples ++ [sLast]) : Int)
        · rw [if_pos hm] at h2
          simp only [List.mem_singleton] at h2
          rw [Event.moveSteps.injEq] at h2
          omega
        · rw [if_neg hm] at h2
          simp at h2
      · split at h2 <;> simp at h2

theorem c9_witness :
    (0 : Int) < 1 ∧ ((([(1 : ℚ), 5]).length : Int) = 2 * 1) ∧
    ((optimiseRun 1 0 (([(1 : ℚ), 5] ++ [0]).map okEnv)).1.sweep_counts.length
        : Int) = 2 * 1 + 1 ∧
    0 ≤ 2 * 1 - (argmax ([(1 : ℚ), 5] ++ [0]) : Int) := by
  have h := c9_step_sweep_sample_count 1 0 [1, 5] 0 (by norm_num) (by decide)
  exact ⟨by norm_num, by decide, h.1, h.2.1⟩

/-- C2: for every voltage sweep run to completion (counter locked at every
tick, never aborted, no hardware fault), the offset voltages written to the
z axis during sampling are exactly the cursor values `0, 1, ..., voltCount-1`
in strictly increasing order, one per tick, followed by one final write
setting the offset voltage to the first-occurring-maximum index of the
recorded sample sequence. -/
theorem c2_volt_sweep_offsets (V : Int) (samples : List ℚ) (sLast : ℚ)
    (hV : 0 < V) (hlen : (samples.length : Int) = V) :
    (optimiseRun 0 V ((samples ++ [sLast]).map okEnv)).2 =
      Event.logDebug :: Event.moveSteps Axis.z (-(Int.fdiv V 20 + 1)) ::
        Event.startCount ::
        (voltMoveEvents 0 samples.length ++
         [Event.countDataUpdated, Event.logDebug,
          Event.setOffset Axis.z (argmax (samples ++ [sLast]) : Int),
          Event.optimisationDone]) ∧
    offsetWrites Axis.z (optimiseRun 0 V ((samples ++ [sLast]).map okEnv)).2 =
      (List.range samples.length).map (fun (i : Nat) => (i : Int)) ++
        [(argmax (samples ++ [sLast]) : Int)] := by
  have h := voltRun_trace V samples sLast hV hlen
  refine ⟨by rw [h], ?_⟩
  rw [h]
  simp [offsetWrites, offsetWrites_append, offsetWrites_voltMoveEvents,
    zero_add]

theorem c2_witness :
    (0 : Int) < 1 ∧ ((([(2 : ℚ)]).length : Int) = 1) ∧
    (optimiseRun 0 1 (([(2 : ℚ)] ++ [7]).map okEnv)).2 =
      Event.logDebug :: Event.moveSteps Axis.z (-(Int.fdiv 1 20 + 1)) ::
        Event.startCount ::
        (voltMoveEvents 0 ([(2 : ℚ)]).length ++
         [Event.countDataUpdated, Event.logDebug,
          Event.setOffset Axis.z (argmax ([(2 : ℚ)] ++ [7]) : Int),
          Event.optimisationDone]) := by
  refine ⟨by norm_num, by decide, ?_⟩
  exact (c2_volt_sweep_offsets 1 [2] 7 (by norm_num) (by decide)).1

/-- C10: a voltage sweep that completes normally appends exactly
`voltCount + 1` samples (each sample being read before the offset voltage for
that cursor value is applied), so the argmax index used for the final
offset-voltage write can equal `voltCount` — one greater than the largest
offset voltage `voltCount - 1` applied during sampling, as the strictly
increasing sample sequence `replicate voltCount 0 ++ [1]` shows. -/
theorem c10_volt_sweep_sample_count (V : Int) (samples : List ℚ) (sLast : ℚ)
    (hV : 0 < V) (hlen : (samples.length : Int) = V) :
    ((optimiseRun 0 V ((samples ++ [sLast]).map okEnv)).1.sweep_counts.length
        : Int) = V + 1 ∧
    (argmax (samples ++ [sLast]) : Int) ≤ V ∧
    offsetWrites Axis.z
        (optimiseRun 0 V ((List.replicate V.toNat (0 : ℚ) ++ [1]).map okEnv)).2 =
      (List.range V.toNat).map (fun (i : Nat) => (i : Int)) ++ [V] ∧
    (∀ w ∈ (List.range V.toNat).map (fun (i : Nat) => (i : Int)),
      w ≤ V - 1) := by
  have h := voltRun_trace V samples sLast hV hlen
  have hargmax : argmax (samples ++ [sLast]) < samples.length + 1 := by
    have := argmax_lt_length (samples ++ [sLast]) (by simp)
    simpa using this
  refine ⟨?_, by omega, ?_, ?_⟩
  · rw [h]
    simp only [voltLoopState, List.length_append, List.length_singleton]
    push_cast
    omega
  · have hlen2 : ((List.replicate V.toNat (0 : ℚ)).length : Int) = V := by
      simp only [List.length_replicate]
      omega
    have h2 := voltRun_trace V (List.replicate V.toNat (0 : ℚ)) 1 hV hlen2
    have hmax : argmax (List.replicate V.toNat (0 : ℚ) ++ [1]) = V.toNat := by
      rw [argmax_append_big]
      · exact List.length_replicate V.toNat 0
      · intro a ha
        rw [List.eq_of_mem_replicate ha]
        norm_num
    rw [h2, hmax]
    have hcast : (V.toNat : Int) = V := by omega
    rw [hcast]
    simp [offsetWrites, offsetWrites_append, offsetWrites_voltMoveEvents,
      zero_add]
  · intro w hw
    simp only [List.mem_map, List.mem_range] at hw
    rcases hw with ⟨i, hi, hiw⟩
    omega

theorem c10_witness :
    (0 : Int) < 1 ∧ ((([(2 : ℚ)]).length : Int) = 1) ∧
    ((optimiseRun 0 1 (([(2 : ℚ)] ++ [7]).map okEnv)).1.sweep_counts.length
        : Int) = 1 + 1 ∧
    (argmax ([(2 : ℚ)] ++ [7]) : Int) ≤ 1 := by
  have h := c10_volt_sweep_sample_count 1 [2] 7 (by norm_num) (by decide)
  exact ⟨by norm_num, by decide, h.1, h.2.1⟩

theorem runCallbacks_none (st : OptState) (es : List Env)
    (hp : st.pending = Pending.none) (ha : st.abort = true) :
    runCallbacks st es = (st, []) := by
  induction es with
  | nil => rfl
  | cons e es ih =>
    have hcb : runCallback st e = (st, []) := by
      obtain ⟨sl, vl, cs, cv, sc, ab, p, cr⟩ := st
      simp only [OptState.pending] at hp
      simp only [OptState.abort] at ha
      subst hp
      subst ha
      by_cases h : e.abortSet <;> simp [runCallback, h]
    simp [runCallbacks, hcb, ih]

/-- C3 (amended): once the abort flag is set, the next sampling tick — in
either sweep phase — stops the count feed, terminates the run (nothing further
is scheduled and no later callback emits anything), and in particular the
done notification is never emitted after the abort.  This covers the sampling
loops only: the phase-transition callback `_start_volt_optimisation` does not
check the abort flag, so an abort landing between the step phase and the
voltage phase still issues the backing-off move and restarts the count feed
(see the counterexample) before the first voltage sampling tick observes the
flag. -/
theorem c3_abort_stops_sampling (st : OptState) (env : Env) (es : List Env)
    (ha : st.abort = true)
    (hp : st.pending = Pending.stepTick ∨ st.pending = Pending.voltTick) :
    runCallbacks st (env :: es) =
      ({ st with pending := Pending.none }, [Event.stopCount]) := by
  have hcb : runCallback st env =
      ({ st with pending := Pending.none }, [Event.stopCount]) := by
    rcases hp with hp | hp <;>
      by_cases h : env.abortSet <;>
        simp [runCallback, h, hp, ha, optimisation_step, volt_optimisation_step]
  have h2 := runCallbacks_none { st with pending := Pending.none } es rfl ha
  simp [runCallbacks, hcb, h2]

/-- C3 counterexample: `optimise_z(1, 1)`; the step phase completes in three
ticks and schedules `_start_volt_optimisation`; `abort_optimisation()` is
called in the gap before it fires.  The claim says no further hardware motion
or voltage command is issued by the run once the flag is set, yet the
transition callback still issues `move_steps('z', -1)` and restarts the count
feed. -/
theorem c3_counterexample :
    (optimiseRun 1 1 [okEnv 0, okEnv 0, okEnv 0]).1.pending =
      Pending.voltStart ∧
    (runCallbacks (optimiseRun 1 1 [okEnv 0, okEnv 0, okEnv 0]).1
        [{ abortSet := true, locked := true, sample := 0, moveFault := false,
           offsetFault := false }, okEnv 0]).1.abort = true ∧
    Event.moveSteps Axis.z (-1) ∈
      (runCallbacks (optimiseRun 1 1 [okEnv 0, okEnv 0, okEnv 0]).1
        [{ abortSet := true, locked := true, sample := 0, moveFault := false,
           offsetFault := false }, okEnv 0]).2 ∧
    Event.startCount ∈
      (runCallbacks (optimiseRun 1 1 [okEnv 0, okEnv 0, okEnv 0]).1
        [{ abortSet := true, locked := true, sample := 0, moveFault := false,
           offsetFault := false }, okEnv 0]).2 := by
  decide

theorem c3_witness :
    ({ stepLoopState 1 0 0 [] with abort := true } : OptState).abort = true ∧
    runCallbacks { stepLoopState 1 0 0 [] with abort := true } [okEnv 0] =
      ({ stepLoopState 1 0 0 [] with abort := true, pending := Pending.none },
       [Event.stopCount]) := by
  refine ⟨rfl, ?_⟩
  exact c3_abort_stops_sampling
    { stepLoopState 1 0 0 [] with abort := true } (okEnv 0) [] rfl (Or.inl rfl)

/-- C4 (amended): a sampling tick that finds the counter module not in the
`'locked'` state terminates the sweep without issuing any relocation move and
without re-arming the timer, in both loops; but the handling is not
identical: the step-sweep loop logs an error while the volt-sweep loop
terminates silently, emitting nothing at all. -/
theorem c4_feed_anomaly (st : OptState) (env : Env)
    (ha : st.abort = false) (has : env.abortSet = false)
    (hl : env.locked = false) :
    (st.pending = Pending.stepTick →
      runCallback st env =
        ({ st with pending := Pending.none },
         [Event.logError "Sweep aborted: counter unexpectedly stopped."])) ∧
    (st.pending = Pending.voltTick →
      runCallback st env = ({ st with pending := Pending.none }, [])) := by
  refine ⟨fun hp => ?_, fun hp => ?_⟩
  · simp [runCallback, has, hp, optimisation_step, ha, hl]
  · simp [runCallback, has, hp, volt_optimisation_step, ha, hl]

/-- C4 counterexample: a volt-sweep tick that finds the counter not locked
(mid-sweep state: cursor 1 of 3, one sample recorded) terminates silently —
it does not log an error — whereas the step-sweep tick in the comparable
state does log one, so the handling of the feed anomaly is not identical in
the two loops, contrary to the claim. -/
theorem c4_counterexample :
    (runCallback (voltLoopState 3 1 [5])
        { abortSet := false, locked := false, sample := 0, moveFault := false,
          offsetFault := false }).2 = [] ∧
    (runCallback (voltLoopState 3 1 [5])
        { abortSet := false, locked := false, sample := 0, moveFault := false,
          offsetFault := false }).2.any isLogError = false ∧
    (runCallback (stepLoopState 3 0 0 [5])
        { abortSet := false, locked := false, sample := 0, moveFault := false,
          offsetFault := false }).2.any isLogError = true := by
  decide

theorem c4_witness :
    (stepLoopState 1 0 0 []).abort = false ∧
    runCallback (stepLoopState 1 0 0 [])
        { abortSet := false, locked := false, sample := 0, moveFault := false,
          offsetFault := false } =
      ({ stepLoopState 1 0 0 [] with pending := Pending.none },
       [Event.logError "Sweep aborted: counter unexpectedly stopped."]) := by
  refine ⟨rfl, ?_⟩
  exact (c4_feed_anomaly (stepLoopState 1 0 0 [])
    { abortSet := false, locked := false, sample := 0, moveFault := false,
      offsetFault := false } rfl rfl rfl).1 rfl

theorem motionsZeroed_stepMoveEvents (n : Nat) (rest : List Event) :
    motionsZeroed Axis.z (stepMoveEvents n ++ rest) true =
      motionsZeroed Axis.z rest true := by
  induction n with
  | zero => rw [stepMoveEvents, List.nil_append]
  | succ n ih => simp [stepMoveEvents, motionsZeroed, ih]

/-- C5 (amended): `start_jog` and `step` zero the offset voltage of the moved
axis immediately before their motion command, and in a pure step-sweep run
every motion command on z follows the initial offset-voltage zeroing with no
other z offset write in between.  The voltage-sweep entry point
`_start_volt_optimisation`, however, issues its backing-off `move_steps`
without zeroing the offset voltage first (see the counterexample), so the
contract does not hold for every motion command issued by an optimisation
sweep. -/
theorem c5_offset_zeroed_before_motion (a : Axis) (d : Bool) (n : Int)
    (L : Int) (samples : List ℚ) (sLast : ℚ) (hL : 0 < L)
    (hlen : (samples.length : Int) = 2 * L) :
    start_jog a d = [Event.setOffset a 0, Event.startJogHW a d] ∧
    step a n = [Event.setOffset a 0, Event.moveSteps a n] ∧
    motionsZeroed a (start_jog a d) false = true ∧
    motionsZeroed a (step a n) false = true ∧
    motionsZeroed Axis.z
      ((optimiseRun L 0 ((samples ++ [sLast]).map okEnv)).2) false = true := by
  have h := stepRun_trace L 0 samples sLast hL hlen
  refine ⟨rfl, rfl, by simp [motionsZeroed, start_jog],
    by simp [motionsZeroed, step], ?_⟩
  rw [h]
  by_cases hm : 0 < 2 * L - (argmax (samples ++ [sLast]) : Int) <;>
    simp [hm, motionsZeroed, motionsZeroed_stepMoveEvents, lt_irrefl]

/-- C5 counterexample: `optimise_z(0, 40)` (a voltage-only optimisation)
issues the backing-off motion command `move_steps('z', -3)` with no offset
write — in particular no zeroing of the z offset voltage — anywhere before
it, contradicting the claim that every motion command issued by an
optimisation sweep is preceded by an offset-voltage zeroing of the moved
axis. -/
theorem c5_counterexample :
    Event.moveSteps Axis.z (-3) ∈ (optimise_z 0 40 false).2 ∧
    offsetWrites Axis.z ((optimise_z 0 40 false).2) = [] ∧
    motionsZeroed Axis.z ((optimise_z 0 40 false).2) false = false := by
  decide

theorem c5_witness :
    (0 : Int) < 1 ∧ ((([(0 : ℚ), 0]).length : Int) = 2 * 1) ∧
    motionsZeroed Axis.x (start_jog Axis.x true) false = true ∧
    motionsZeroed Axis.z
      ((optimiseRun 1 0 (([(0 : ℚ), 0] ++ [0]).map okEnv)).2) false = true := by
  have h := c5_offset_zeroed_before_motion Axis.x true (-1) 1 [0, 0] 0
    (by norm_num) (by decide)
  exact ⟨by norm_num, by decide, h.2.2.1, h.2.2.2.2⟩

/-- C6 (amended): there is no get/set asymmetry in the fault handling:
`get_axis_params` carries the same `hwerror_handler` decorator as
`set_axis_params`, so a `PositionerError` raised by the underlying
`get_axis_config` query is swallowed (logged) and the call returns normally
with `None` — it is not propagated to the caller. -/
theorem c6_get_params_swallows
    (hwGet : Axis → String → Except PositionerError ℚ)
    (hwSet : Axis → Int → Int → Except PositionerError Unit)
    (axis : Axis) (volt freq : Int) (e e2 : PositionerError)
    (hG : hwGet axis "step_voltage" = Except.error e)
    (hS : hwSet axis volt freq = Except.error e2) :
    get_axis_params hwGet axis =
      (Except.ok none, [Event.logError e.msg]) ∧
    set_axis_params hwSet axis volt freq =
      (Except.ok none, [Event.logError e2.msg]) := by
  constructor
  · simp [get_axis_params, hwerror_handler, hG, Bind.bind, Except.bind]
  · simp [set_axis_params, hwerror_handler, hS]

/-- C6 counterexample: with hardware whose `get_axis_config` raises,
`get_axis_params` returns normally (`None`) with the fault merely logged; it
does not propagate the fault to its caller, so the claimed contrast with
`set_axis_params` does not exist. -/
theorem c6_counterexample :
    (get_axis_params (fun _ _ => Except.error ⟨"hw fault"⟩) Axis.x).1 =
      Except.ok none ∧
    (get_axis_params (fun _ _ => Except.error ⟨"hw fault"⟩) Axis.x).2 =
      [Event.logError "hw fault"] ∧
    ¬ (∃ er, (get_axis_params (fun _ _ => Except.error ⟨"hw fault"⟩)
        Axis.x).1 = Except.error er) := by
  refine ⟨rfl, rfl, ?_⟩
  rintro ⟨er, her⟩
  exact Except.noConfusion
    (show Except.ok (none : Option (ℚ × ℚ)) = Except.error er from her)

theorem c6_witness :
    ((fun (_ : Axis) (_ : String) =>
        (Except.error ⟨"fault"⟩ : Except PositionerError ℚ)) Axis.y
      "step_voltage" = Except.error ⟨"fault"⟩) ∧
    get_axis_params
        (fun _ _ => (Except.error ⟨"fault"⟩ : Except PositionerError ℚ))
        Axis.y =
      (Except.ok none, [Event.logError "fault"]) := by
  refine ⟨rfl, ?_⟩
  exact (c6_get_params_swallows
    (fun _ _ => Except.error ⟨"fault"⟩)
    (fun _ _ _ => Except.error ⟨"fault"⟩)
    Axis.y 0 0 ⟨"fault"⟩ ⟨"fault"⟩ rfl rfl).1

theorem sign_of_pos {q : ℚ} (h : 0 < q) : sign q = 1 := by
  simp [sign, h]

theorem sign_of_neg {q : ℚ} (h : q < 0) : sign q = -1 := by
  simp [sign, asymm h, h]

theorem sign_valid (q : ℚ) : sign q = -1 ∨ sign q = 0 ∨ sign q = 1 := by
  unfold sign
  rcases lt_trichotomy q 0 with h | h | h
  · simp [asymm h, h]
  · simp [h]
  · simp [h]

theorem isign_valid {n : Int} (h : n = -1 ∨ n = 0 ∨ n = 1) : isign n = n := by
  rcases h with rfl | rfl | rfl <;> decide

theorem requiredXY_fst (x y : ℚ) :
    (requiredXY x y).1 = 0 ∨ ((requiredXY x y).1 = sign x ∧ x ≠ 0) := by
  unfold requiredXY
  split
  · exact Or.inl rfl
  split
  · exact Or.inl rfl
  split
  next h3 =>
    refine Or.inr ⟨rfl, fun h0 => ?_⟩
    rw [h0, abs_zero] at h3
    exact absurd h3 (not_lt.mpr (abs_nonneg _))
  next h3 =>
    by_cases hx : x = 0
    · exact Or.inl (by simp [hx])
    · exact Or.inr ⟨by simp [hx], hx⟩

theorem requiredXY_snd (x y : ℚ) :
    (requiredXY x y).2 = 0 ∨ ((requiredXY x y).2 = sign y ∧ y ≠ 0) := by
  unfold requiredXY
  split
  · exact Or.inl rfl
  split
  next h2 =>
    refine Or.inr ⟨rfl, fun h0 => ?_⟩
    rw [h0, abs_zero] at h2
    exact absurd h2 (not_lt.mpr (abs_nonneg _))
  split
  · exact Or.inl rfl
  next h2 h3 =>
    by_cases hy : y = 0
    · exact Or.inl (by simp [hy])
    · exact Or.inr ⟨by simp [hy], hy⟩

theorem lastCommanded_append (a : Axis) (cur : Int) (l1 l2 : List Event) :
    lastCommanded a cur (l1 ++ l2) =
      lastCommanded a (lastCommanded a cur l1) l2 := by
  induction l1 generalizing cur with
  | nil => rfl
  | cons e rest ih => cases e <;> simp [lastCommanded, ih]

theorem lastCommanded_other (a b : Axis) (cur : Int) (evs : List Event)
    (hb : b ≠ a) (h : ∀ e ∈ evs, eventAxis e = some b) :
    lastCommanded a cur evs = cur := by
  induction evs generalizing cur with
  | nil => rfl
  | cons e rest ih =>
    have hrest : ∀ e2 ∈ rest, eventAxis e2 = some b :=
      fun e2 h2 => h e2 (by simp [h2])
    cases e with
    | startJogHW a2 d =>
      have he : a2 = b := by
        simpa [eventAxis] using
          h (Event.startJogHW a2 d) (List.mem_cons_self _ _)
      subst he
      simp only [lastCommanded, if_neg hb]
      exact ih _ hrest
    | stopAxisHW a2 =>
      have he : a2 = b := by
        simpa [eventAxis] using
          h (Event.stopAxisHW a2) (List.mem_cons_self _ _)
      subst he
      simp only [lastCommanded, if_neg hb]
      exact ih _ hrest
    | stopAllHW =>
      simpa [eventAxis] using h Event.stopAllHW (List.mem_cons_self _ _)
    | setOffset a2 v => simpa [lastCommanded] using ih _ hrest
    | moveSteps a2 n => simpa [lastCommanded] using ih _ hrest
    | startCount => simpa [lastCommanded] using ih _ hrest
    | stopCount => simpa [lastCommanded] using ih _ hrest
    | countDataUpdated => simpa [lastCommanded] using ih _ hrest
    | optimisationDone => simpa [lastCommanded] using ih _ hrest
    | logError msg => simpa [lastCommanded] using ih _ hrest
    | logDebug => simpa [lastCommanded] using ih _ hrest

theorem zControl_summary (zr : Int) (z : ℚ)
    (hv : zr = -1 ∨ zr = 0 ∨ zr = 1) :
    (zControl zr z).1 = (if z = 0 then 0 else sign z) ∧
    ((zControl zr z).1 = zr → (zControl zr z).2 = []) ∧
    (∀ d, Event.startJogHW Axis.z d ∈ (zControl zr z).2 →
      sign z ≠ zr ∧ jogDir Axis.z d = sign z) ∧
    (Event.stopAxisHW Axis.z ∈ (zControl zr z).2 → zr ≠ 0 ∧ z = 0) ∧
    lastCommanded Axis.z zr (zControl zr z).2 = (zControl zr z).1 ∧
    (∀ e ∈ (zControl zr z).2, eventAxis e = some Axis.z) := by
  rcases hv with rfl | rfl | rfl <;>
    rcases lt_trichotomy z 0 with hz | rfl | hz <;>
      first
        | (simp [zControl, sign, isign, lastCommanded, eventAxis, jogDir,
            start_jog, stop_axis, hz, asymm hz, ne_of_lt hz]
           done)
        | (simp [zControl, sign, isign, lastCommanded, eventAxis, jogDir,
            start_jog, stop_axis, hz, asymm hz, ne_of_gt hz]
           done)
        | (simp [zControl, sign, isign, lastCommanded, eventAxis, jogDir,
            start_jog, stop_axis]
           done)

theorem stopYBlock_summary (yr ry : Int) :
    (stopYBlock yr ry).1 = (if ry = 0 then 0 else yr) ∧
    (Event.stopAxisHW Axis.y ∈ (stopYBlock yr ry).2 → yr ≠ 0 ∧ ry = 0) ∧
    (∀ d, Event.startJogHW Axis.y d ∉ (stopYBlock yr ry).2) ∧
    lastCommanded Axis.y yr (stopYBlock yr ry).2 = (stopYBlock yr ry).1 ∧
    (∀ e ∈ (stopYBlock yr ry).2, eventAxis e = some Axis.y) := by
  by_cases h1 : ry = 0
  · by_cases h2 : yr = 0 <;>
      simp [stopYBlock, h1, h2, lastCommanded, eventAxis, stop_axis]
  · simp [stopYBlock, h1, lastCommanded, eventAxis]

theorem stopXBlock_summary (xr rx : Int) :
    (stopXBlock xr rx).1 = (if rx = 0 then 0 else xr) ∧
    (Event.stopAxisHW Axis.x ∈ (stopXBlock xr rx).2 → xr ≠ 0 ∧ rx = 0) ∧
    (∀ d, Event.startJogHW Axis.x d ∉ (stopXBlock xr rx).2) ∧
    lastCommanded Axis.x xr (stopXBlock xr rx).2 = (stopXBlock xr rx).1 ∧
    (∀ e ∈ (stopXBlock xr rx).2, eventAxis e = some Axis.x) := by
  by_cases h1 : rx = 0
  · by_cases h2 : xr = 0 <;>
      simp [stopXBlock, h1, h2, lastCommanded, eventAxis, stop_axis]
  · simp [stopXBlock, h1, lastCommanded, eventAxis]

theorem moveY_summary (s1 ry : Int) (y : ℚ)
    (hv : s1 = -1 ∨ s1 = 0 ∨ s1 = 1)
    (hr : ry = 0 ∨ (ry = sign y ∧ y ≠ 0)) :
    (moveY s1 ry y).1 = (if ry = 0 then s1 else ry) ∧
    (∀ d, Event.startJogHW Axis.y d ∈ (moveY s1 ry y).2 →
      ry ≠ s1 ∧ ry ≠ 0 ∧ jogDir Axis.y d = ry) ∧
    (Event.stopAxisHW Axis.y ∉ (moveY s1 ry y).2) ∧
    lastCommanded Axis.y s1 (moveY s1 ry y).2 = (moveY s1 ry y).1 ∧
    (∀ e ∈ (moveY s1 ry y).2, eventAxis e = some Axis.y) := by
  rcases hr with rfl | ⟨rfl, hy⟩
  · simp [moveY, lastCommanded]
  · rcases lt_trichotomy y 0 with h | h | h
    · rcases hv with rfl | rfl | rfl <;>
        simp [moveY, sign, isign, lastCommanded, eventAxis, jogDir,
          start_jog, h, asymm h, ne_of_lt h]
    · exact absurd h hy
    · rcases hv with rfl | rfl | rfl <;>
        simp [moveY, sign, isign, lastCommanded, eventAxis, jogDir,
          start_jog, h, asymm h, ne_of_gt h]

theorem moveX_summary (s1 rx : Int) (x : ℚ)
    (hv : s1 = -1 ∨ s1 = 0 ∨ s1 = 1)
    (hr : rx = 0 ∨ (rx = sign x ∧ x ≠ 0)) :
    (moveX s1 rx x).1 = (if rx = 0 then s1 else rx) ∧
    (∀ d, Event.startJogHW Axis.x d ∈ (moveX s1 rx x).2 →
      rx ≠ s1 ∧ rx ≠ 0 ∧ jogDir Axis.x d = rx) ∧
    (Event.stopAxisHW Axis.x ∉ (moveX s1 rx x).2) ∧
    lastCommanded Axis.x s1 (moveX s1 rx x).2 = (moveX s1 rx x).1 ∧
    (∀ e ∈ (moveX s1 rx x).2, eventAxis e = some Axis.x) := by
  rcases hr with rfl | ⟨rfl, hx⟩
  · simp [moveX, lastCommanded]
  · rcases lt_trichotomy x 0 with h | h | h
    · rcases hv with rfl | rfl | rfl <;>
        simp [moveX, sign, isign, lastCommanded, eventAxis, jogDir,
          start_jog, h, asymm h, ne_of_lt h]
    · exact absurd h hx
    · rcases hv with rfl | rfl | rfl <;>
        simp [moveX, sign, isign, lastCommanded, eventAxis, jogDir,
          start_jog, h, asymm h, ne_of_gt h]

theorem moveX_self (r : Int) (x : ℚ) : moveX r r x = (r, []) := by
  simp [moveX]

theorem moveY_self (r : Int) (y : ℚ) : moveY r r y = (r, []) := by
  simp [moveY]

theorem stopXBlock_self (r : Int) : stopXBlock r r = (r, []) := by
  by_cases h : r = 0 <;> simp [stopXBlock, h]

theorem stopYBlock_self (r : Int) : stopYBlock r r = (r, []) := by
  by_cases h : r = 0 <;> simp [stopYBlock, h]

theorem zControl_stable (z : ℚ) :
    zControl (if z = 0 then 0 else sign z) z =
      ((if z = 0 then 0 else sign z), []) := by
  rcases lt_trichotomy z 0 with h | h | h
  · simp [zControl, sign, isign, h, asymm h, ne_of_lt h]
  · subst h
    simp [zControl, sign, isign]
  · simp [zControl, sign, isign, h, asymm h, ne_of_gt h]

/-- Full characterisation of one `xbox_joystick_move` call from a valid
jog-state record: the new state, its validity, the jog-state/trace agreement,
the edge-trigger conditions for every start and stop call, and idempotence
under a repeated identical sample. -/
theorem xbox_summary (st : JoyState) (j : JoystickInput) (hv : st.valid) :
    ((xbox_joystick_move st j).1 =
      { x_joystick_jog_running := (requiredXY j.x_left j.y_left).1,
        y_joystick_jog_running := (requiredXY j.x_left j.y_left).2,
        z_joystick_jog_running :=
          if j.y_right = 0 then 0 else sign j.y_right }) ∧
    (xbox_joystick_move st j).1.valid ∧
    (lastCommanded Axis.x st.x_joystick_jog_running (xbox_joystick_move st j).2 =
      (xbox_joystick_move st j).1.x_joystick_jog_running) ∧
    (lastCommanded Axis.y st.y_joystick_jog_running (xbox_joystick_move st j).2 =
      (xbox_joystick_move st j).1.y_joystick_jog_running) ∧
    (lastCommanded Axis.z st.z_joystick_jog_running (xbox_joystick_move st j).2 =
      (xbox_joystick_move st j).1.z_joystick_jog_running) ∧
    (∀ d, Event.startJogHW Axis.x d ∈ (xbox_joystick_move st j).2 →
      (requiredXY j.x_left j.y_left).1 ≠ st.x_joystick_jog_running ∧
      (requiredXY j.x_left j.y_left).1 ≠ 0 ∧
      jogDir Axis.x d = (requiredXY j.x_left j.y_left).1) ∧
    (∀ d, Event.startJogHW Axis.y d ∈ (xbox_joystick_move st j).2 →
      (requiredXY j.x_left j.y_left).2 ≠ st.y_joystick_jog_running ∧
      (requiredXY j.x_left j.y_left).2 ≠ 0 ∧
      jogDir Axis.y d = (requiredXY j.x_left j.y_left).2) ∧
    (∀ d, Event.startJogHW Axis.z d ∈ (xbox_joystick_move st j).2 →
      sign j.y_right ≠ st.z_joystick_jog_running ∧
      jogDir Axis.z d = sign j.y_right) ∧
    (Event.stopAxisHW Axis.x ∈ (xbox_joystick_move st j).2 →
      st.x_joystick_jog_running ≠ 0 ∧ (requiredXY j.x_left j.y_left).1 = 0) ∧
    (Event.stopAxisHW Axis.y ∈ (xbox_joystick_move st j).2 →
      st.y_joystick_jog_running ≠ 0 ∧ (requiredXY j.x_left j.y_left).2 = 0) ∧
    (Event.stopAxisHW Axis.z ∈ (xbox_joystick_move st j).2 →
      st.z_joystick_jog_running ≠ 0 ∧ j.y_right = 0) ∧
    xbox_joystick_move (xbox_joystick_move st j).1 j =
      ((xbox_joystick_move st j).1, []) := by
  obtain ⟨hvx, hvy, hvz⟩ := hv
  have hreqx := requiredXY_fst j.x_left j.y_left
  have hreqy := requiredXY_snd j.x_left j.y_left
  set rx := (requiredXY j.x_left j.y_left).1 with hrxdef
  set ry := (requiredXY j.x_left j.y_left).2 with hrydef
  have hzc := zControl_summary st.z_joystick_jog_running j.y_right hvz
  have hsx := stopXBlock_summary st.x_joystick_jog_running rx
  have hsy := stopYBlock_summary st.y_joystick_jog_running ry
  have hs1xv : (stopXBlock st.x_joystick_jog_running rx).1 = -1 ∨
      (stopXBlock st.x_joystick_jog_running rx).1 = 0 ∨
      (stopXBlock st.x_joystick_jog_running rx).1 = 1 := by
    rw [hsx.1]
    by_cases h : rx = 0
    · simp [h]
    · simpa [h] using hvx
  have hs1yv : (stopYBlock st.y_joystick_jog_running ry).1 = -1 ∨
      (stopYBlock st.y_joystick_jog_running ry).1 = 0 ∨
      (stopYBlock st.y_joystick_jog_running ry).1 = 1 := by
    rw [hsy.1]
    by_cases h : ry = 0
    · simp [h]
    · simpa [h] using hvy
  have hmx := moveX_summary (stopXBlock st.x_joystick_jog_running rx).1 rx
    j.x_left hs1xv hreqx
  have hmy := moveY_summary (stopYBlock st.y_joystick_jog_running ry).1 ry
    j.y_left hs1yv hreqy
  have hxb : xbox_joystick_move st j =
      ({ x_joystick_jog_running :=
           (moveX (stopXBlock st.x_joystick_jog_running rx).1 rx j.x_left).1,
         y_joystick_jog_running :=
           (moveY (stopYBlock st.y_joystick_jog_running ry).1 ry j.y_left).1,
         z_joystick_jog_running :=
           (zControl st.z_joystick_jog_running j.y_right).1 },
       (zControl st.z_joystick_jog_running j.y_right).2 ++
         (stopXBlock st.x_joystick_jog_running rx).2 ++
         (stopYBlock st.y_joystick_jog_running ry).2 ++
         (moveY (stopYBlock st.y_joystick_jog_running ry).1 ry j.y_left).2 ++
         (moveX (stopXBlock st.x_joystick_jog_running rx).1 rx j.x_left).2) :=
    rfl
  have hxfin :
      (moveX (stopXBlock st.x_joystick_jog_running rx).1 rx j.x_left).1 =
        rx := by
    rw [hmx.1, hsx.1]
    by_cases h : rx = 0 <;> simp [h]
  have hyfin :
      (moveY (stopYBlock st.y_joystick_jog_running ry).1 ry j.y_left).1 =
        ry := by
    rw [hmy.1, hsy.1]
    by_cases h : ry = 0 <;> simp [h]
  have hrxv : rx = -1 ∨ rx = 0 ∨ rx = 1 := by
    rcases hreqx with h | ⟨h, _⟩
    · exact Or.inr (Or.inl h)
    · rw [h]
      exact sign_valid _
  have hryv : ry = -1 ∨ ry = 0 ∨ ry = 1 := by
    rcases hreqy with h | ⟨h, _⟩
    · exact Or.inr (Or.inl h)
    · rw [h]
      exact sign_valid _
  have hzfv : (if j.y_right = 0 then 0 else sign j.y_right) = (-1 : Int) ∨
      (if j.y_right = 0 then 0 else sign j.y_right) = 0 ∨
      (if j.y_right = 0 then 0 else sign j.y_right) = 1 := by
    by_cases h : j.y_right = 0
    · simp [h]
    · simp only [if_neg h]
      exact sign_valid _
  have hstate : (xbox_joystick_move st j).1 =
      { x_joystick_jog_running := rx, y_joystick_jog_running := ry,
        z_joystick_jog_running :=
          if j.y_right = 0 then 0 else sign j.y_right } := by
    rw [hxb]
    simp only [hxfin, hyfin, hzc.1]
  refine ⟨hstate, ?_, ?_, ?_, ?_, ?_, ?_, ?_, ?_, ?_, ?_, ?_⟩
  · rw [hstate]
    exact ⟨hrxv, hryv, hzfv⟩
  · -- lastCommanded for x
    rw [hxb]
    simp only [lastCommanded_append]
    rw [lastCommanded_other Axis.x Axis.z _ _ (by decide) hzc.2.2.2.2.2,
      hsx.2.2.2.1,
      lastCommanded_other Axis.x Axis.y _ _ (by decide) hsy.2.2.2.2,
      lastCommanded_other Axis.x Axis.y _ _ (by decide) hmy.2.2.2.2,
      hmx.2.2.2.1]
  · -- lastCommanded for y
    rw [hxb]
    simp only [lastCommanded_append]
    rw [lastCommanded_other Axis.y Axis.z _ _ (by decide) hzc.2.2.2.2.2,
      lastCommanded_other Axis.y Axis.x _ _ (by decide) hsx.2.2.2.2,
      hsy.2.2.2.1, hmy.2.2.2.1,
      lastCommanded_other Axis.y Axis.x _ _ (by decide) hmx.2.2.2.2]
  · -- lastCommanded for z
    rw [hxb]
    simp only [lastCommanded_append]
    rw [hzc.2.2.2.2.1,
      lastCommanded_other Axis.z Axis.x _ _ (by decide) hsx.2.2.2.2,
      lastCommanded_other Axis.z Axis.y _ _ (by decide) hsy.2.2.2.2,
      lastCommanded_other Axis.z Axis.y _ _ (by decide) hmy.2.2.2.2,
      lastCommanded_other Axis.z Axis.x _ _ (by decide) hmx.2.2.2.2]
  · -- start x only on change
    intro d hd
    rw [hxb] at hd
    simp only [List.mem_append] at hd
    rcases hd with ((((hd | hd) | hd) | hd) | hd)
    · exact absurd (hzc.2.2.2.2.2 _ hd) (by simp [eventAxis])
    · exact absurd hd (hsx.2.2.1 d)
    · exact absurd (hsy.2.2.2.2 _ hd) (by simp [eventAxis])
    · exact absurd (hmy.2.2.2.2 _ hd) (by simp [eventAxis])
    · rcases hmx.2.1 d hd with ⟨h1, h2, h3⟩
      rw [hsx.1, if_neg h2] at h1
      exact ⟨h1, h2, h3⟩
  · -- start y only on change
    intro d hd
    rw [hxb] at hd
    simp only [List.mem_append] at hd
    rcases hd with ((((hd | hd) | hd) | hd) | hd)
    · exact absurd (hzc.2.2.2.2.2 _ hd) (by simp [eventAxis])
    · exact absurd (hsx.2.2.2.2 _ hd) (by simp [eventAxis])
    · exact absurd hd (hsy.2.2.1 d)
    · rcases hmy.2.1 d hd with ⟨h1, h2, h3⟩
      rw [hsy.1, if_neg h2] at h1
      exact ⟨h1, h2, h3⟩
    · exact absurd (hmx.2.2.2.2 _ hd) (by simp [eventAxis])
  · -- start z only on change
    intro d hd
    rw [hxb] at hd
    simp only [List.mem_append] at hd
    rcases hd with ((((hd | hd) | hd) | hd) | hd)
    · exact hzc.2.2.1 d hd
    · exact absurd (hsx.2.2.2.2 _ hd) (by simp [eventAxis])
    · exact absurd (hsy.2.2.2.2 _ hd) (by simp [eventAxis])
    · exact absurd (hmy.2.2.2.2 _ hd) (by simp [eventAxis])
    · exact absurd (hmx.2.2.2.2 _ hd) (by simp [eventAxis])
  · -- stop x only when running and desired zero
    intro hd
    rw [hxb] at hd
    simp only [List.mem_append] at hd
    rcases hd with ((((hd | hd) | hd) | hd) | hd)
    · exact absurd (hzc.2.2.2.2.2 _ hd) (by simp [eventAxis])
    · exact hsx.2.1 hd
    · exact absurd (hsy.2.2.2.2 _ hd) (by simp [eventAxis])
    · exact absurd (hmy.2.2.2.2 _ hd) (by simp [eventAxis])
    · exact absurd hd hmx.2.2.1
  · -- stop y only when running and desired zero
    intro hd
    rw [hxb] at hd
    simp only [List.mem_append] at hd
    rcases hd with ((((hd | hd) | hd) | hd) | hd)
    · exact absurd (hzc.2.2.2.2.2 _ hd) (by simp [eventAxis])
    · exact absurd (hsx.2.2.2.2 _ hd) (by simp [eventAxis])
    · exact hsy.2.1 hd
    · exact absurd hd hmy.2.2.1
    · exact absurd (hmx.2.2.2.2 _ hd) (by simp [eventAxis])
  · -- stop z only when running and input zero
    intro hd
    rw [hxb] at hd
    simp only [List.mem_append] at hd
    rcases hd with ((((hd | hd) | hd) | hd) | hd)
    · exact hzc.2.2.2.1 hd
    · exact absurd (hsx.2.2.2.2 _ hd) (by simp [eventAxis])
    · exact absurd (hsy.2.2.2.2 _ hd) (by simp [eventAxis])
    · exact absurd (hmy.2.2.2.2 _ hd) (by simp [eventAxis])
    · exact absurd (hmx.2.2.2.2 _ hd) (by simp [eventAxis])
  · -- repeated identical sample is a no-op
    rw [hstate]
    show xbox_joystick_move _ j = _
    have hxb2 : xbox_joystick_move
        { x_joystick_jog_running := rx, y_joystick_jog_running := ry,
          z_joystick_jog_running :=
            if j.y_right = 0 then 0 else sign j.y_right } j =
        ({ x_joystick_jog_running := (moveX (stopXBlock rx rx).1 rx j.x_left).1,
           y_joystick_jog_running := (moveY (stopYBlock ry ry).1 ry j.y_left).1,
           z_joystick_jog_running :=
             (zControl (if j.y_right = 0 then 0 else sign j.y_right)
               j.y_right).1 },
         (zControl (if j.y_right = 0 then 0 else sign j.y_right) j.y_right).2 ++
           (stopXBlock rx rx).2 ++ (stopYBlock ry ry).2 ++
           (moveY (stopYBlock ry ry).1 ry j.y_left).2 ++
           (moveX (stopXBlock rx rx).1 rx j.x_left).2) := rfl
    rw [hxb2, zControl_stable, stopXBlock_self, stopYBlock_self, moveX_self,
      moveY_self]
    simp

theorem runJoystick_inv (js : List JoystickInput) (st : JoyState)
    (hv : st.valid) :
    (runJoystick st js).1.x_joystick_jog_running =
      lastCommanded Axis.x st.x_joystick_jog_running (runJoystick st js).2 ∧
    (runJoystick st js).1.y_joystick_jog_running =
      lastCommanded Axis.y st.y_joystick_jog_running (runJoystick st js).2 ∧
    (runJoystick st js).1.z_joystick_jog_running =
      lastCommanded Axis.z st.z_joystick_jog_running (runJoystick st js).2 ∧
    (runJoystick st js).1.valid := by
  induction js generalizing st with
  | nil => exact ⟨rfl, rfl, rfl, hv⟩
  | cons jj js ih =>
    have hsum := xbox_summary st jj hv
    have hih := ih (xbox_joystick_move st jj).1 hsum.2.1
    have hrun : runJoystick st (jj :: js) =
        ((runJoystick (xbox_joystick_move st jj).1 js).1,
         (xbox_joystick_move st jj).2 ++
           (runJoystick (xbox_joystick_move st jj).1 js).2) := rfl
    rw [hrun]
    refine ⟨?_, ?_, ?_, hih.2.2.2⟩
    · rw [lastCommanded_append, hsum.2.2.1]
      exact hih.1
    · rw [lastCommanded_append, hsum.2.2.2.1]
      exact hih.2.1
    · rw [lastCommanded_append, hsum.2.2.2.2.1]
      exact hih.2.2.1

/-- C7: for every joystick sample processed from a valid jog-state record, a
start-jog hardware call for an axis is issued only when the desired direction
for that axis differs from the recorded per-axis jog state (and carries
exactly the desired direction), a stop call only when that state is nonzero
and the desired direction is zero; a repeated identical sample issues no
hardware call at all; and over any sample sequence from start-up each
per-axis jog-state variable equals the direction last commanded to the
hardware for that axis. -/
theorem c7_joystick_edge_triggered :
    (∀ (st : JoyState) (j : JoystickInput), st.valid →
      (∀ d, Event.startJogHW Axis.x d ∈ (xbox_joystick_move st j).2 →
        (requiredXY j.x_left j.y_left).1 ≠ st.x_joystick_jog_running ∧
        jogDir Axis.x d = (requiredXY j.x_left j.y_left).1) ∧
      (∀ d, Event.startJogHW Axis.y d ∈ (xbox_joystick_move st j).2 →
        (requiredXY j.x_left j.y_left).2 ≠ st.y_joystick_jog_running ∧
        jogDir Axis.y d = (requiredXY j.x_left j.y_left).2) ∧
      (∀ d, Event.startJogHW Axis.z d ∈ (xbox_joystick_move st j).2 →
        sign j.y_right ≠ st.z_joystick_jog_running ∧
        jogDir Axis.z d = sign j.y_right) ∧
      (Event.stopAxisHW Axis.x ∈ (xbox_joystick_move st j).2 →
        st.x_joystick_jog_running ≠ 0 ∧
        (requiredXY j.x_left j.y_left).1 = 0) ∧
      (Event.stopAxisHW Axis.y ∈ (xbox_joystick_move st j).2 →
        st.y_joystick_jog_running ≠ 0 ∧
        (requiredXY j.x_left j.y_left).2 = 0) ∧
      (Event.stopAxisHW Axis.z ∈ (xbox_joystick_move st j).2 →
        st.z_joystick_jog_running ≠ 0 ∧ j.y_right = 0) ∧
      xbox_joystick_move (xbox_joystick_move st j).1 j =
        ((xbox_joystick_move st j).1, [])) ∧
    (∀ js : List JoystickInput,
      (runJoystick
        { x_joystick_jog_running := 0, y_joystick_jog_running := 0,
          z_joystick_jog_running := 0 } js).1.x_joystick_jog_running =
        lastCommanded Axis.x 0
          (runJoystick
            { x_joystick_jog_running := 0, y_joystick_jog_running := 0,
              z_joystick_jog_running := 0 } js).2 ∧
      (runJoystick
        { x_joystick_jog_running := 0, y_joystick_jog_running := 0,
          z_joystick_jog_running := 0 } js).1.y_joystick_jog_running =
        lastCommanded Axis.y 0
          (runJoystick
            { x_joystick_jog_running := 0, y_joystick_jog_running := 0,
              z_joystick_jog_running := 0 } js).2 ∧
      (runJoystick
        { x_joystick_jog_running := 0, y_joystick_jog_running := 0,
          z_joystick_jog_running := 0 } js).1.z_joystick_jog_running =
        lastCommanded Axis.z 0
          (runJoystick
            { x_joystick_jog_running := 0, y_joystick_jog_running := 0,
              z_joystick_jog_running := 0 } js).2) := by
  constructor
  · intro st j hv
    have hsum := xbox_summary st j hv
    refine ⟨?_, ?_, ?_, hsum.2.2.2.2.2.2.2.2.1, hsum.2.2.2.2.2.2.2.2.2.1,
      hsum.2.2.2.2.2.2.2.2.2.2.1, hsum.2.2.2.2.2.2.2.2.2.2.2⟩
    · intro d hd
      rcases hsum.2.2.2.2.2.1 d hd with ⟨h1, _, h3⟩
      exact ⟨h1, h3⟩
    · intro d hd
      rcases hsum.2.2.2.2.2.2.1 d hd with ⟨h1, _, h3⟩
      exact ⟨h1, h3⟩
    · exact hsum.2.2.2.2.2.2.2.1
  · intro js
    have h := runJoystick_inv js
      { x_joystick_jog_running := 0, y_joystick_jog_running := 0,
        z_joystick_jog_running := 0 } (by decide)
    exact ⟨h.1, h.2.1, h.2.2.1⟩

theorem c7_witness :
    JoyState.valid
      { x_joystick_jog_running := 0, y_joystick_jog_running := 0,
        z_joystick_jog_running := 0 } ∧
    xbox_joystick_move
        (xbox_joystick_move
          { x_joystick_jog_running := 0, y_joystick_jog_running := 0,
            z_joystick_jog_running := 0 }
          { x_left := 1, y_left := 2, y_right := 0 }).1
        { x_left := 1, y_left := 2, y_right := 0 } =
      ((xbox_joystick_move
          { x_joystick_jog_running := 0, y_joystick_jog_running := 0,
            z_joystick_jog_running := 0 }
          { x_left := 1, y_left := 2, y_right := 0 }).1, []) := by
  refine ⟨by decide, ?_⟩
  exact (c7_joystick_edge_triggered.1
    { x_joystick_jog_running := 0, y_joystick_jog_running := 0,
      z_joystick_jog_running := 0 }
    { x_left := 1, y_left := 2, y_right := 0 }
    (by decide)).2.2.2.2.2.2

theorem requiredXY_one_two : requiredXY 1 2 = (1, 1) := by
  have e1 : ¬ ((1 : ℚ) ^ 2 + 2 ^ 2 < (1 / 10) ^ 2) := by norm_num
  have e2 : ¬ (|(2 : ℚ)| > |2 * 1|) := by
    rw [abs_of_pos (by norm_num : (0 : ℚ) < 2),
      abs_of_pos (by norm_num : (0 : ℚ) < 2 * 1)]
    norm_num
  have e3 : ¬ (|(1 : ℚ)| > |2 * 2|) := by
    rw [abs_of_pos (by norm_num : (0 : ℚ) < 1),
      abs_of_pos (by norm_num : (0 : ℚ) < 2 * 2)]
    norm_num
  rw [requiredXY, if_neg e1, if_neg e2, if_neg e3]
  norm_num [sign]

/-- C8 counterexample: the sample `xIn = 1, yIn = 2` sits exactly on the
`|y| = 2|x|` boundary; with the source's strict `>` comparison
`abs(y) > abs(2*x)` is `2 > 2`, which is false, so the sample does NOT fall
into the pure-y branch: `required_x` is `1`, not `0`, and from a stopped
state the x axis is commanded too. -/
theorem c8_counterexample :
    requiredXY 1 2 = (1, 1) ∧
    ¬ requiredXY 1 2 = (0, sign 2) ∧
    Event.startJogHW Axis.x true ∈
      (xbox_joystick_move
        { x_joystick_jog_running := 0, y_joystick_jog_running := 0,
          z_joystick_jog_running := 0 }
        { x_left := 1, y_left := 2, y_right := 0 }).2 := by
  refine ⟨requiredXY_one_two, ?_, ?_⟩
  · rw [requiredXY_one_two]
    decide
  · norm_num [xbox_joystick_move, requiredXY_one_two, zControl, stopXBlock,
      stopYBlock, moveY, moveX, sign, isign, start_jog]

/-- C8 (amended): the joystick sample `xIn = 1, yIn = 2` (exactly
`|y| = 2|x|`) deterministically falls into the DIAGONAL branch of the sector
policy, because the pure-y test `abs(y) > abs(2*x)` is strict and `2 > 2`
fails: the desired motion is `x = sign(xIn) = 1` and `y = sign(yIn) = 1`, so
from a stopped state both the y and the x axis are commanded (y first, per
the block order). -/
theorem c8_boundary_diagonal :
    requiredXY 1 2 = (sign 1, sign 2) ∧
    sign (1 : ℚ) = 1 ∧ sign (2 : ℚ) = 1 ∧
    xbox_joystick_move
        { x_joystick_jog_running := 0, y_joystick_jog_running := 0,
          z_joystick_jog_running := 0 }
        { x_left := 1, y_left := 2, y_right := 0 } =
      ({ x_joystick_jog_running := 1, y_joystick_jog_running := 1,
         z_joystick_jog_running := 0 },
       [Event.setOffset Axis.y 0, Event.startJogHW Axis.y true,
        Event.setOffset Axis.x 0, Event.startJogHW Axis.x true]) := by
  refine ⟨by rw [requiredXY_one_two]; decide, by decide, by decide, ?_⟩
  norm_num [xbox_joystick_move, requiredXY_one_two, zControl, stopXBlock,
    stopYBlock, moveY, moveX, sign, isign, start_jog]

end Stagecontrol
